import Mathlib

/-!
Verification of the PR-approval-to-Jira-transition state machine of
`sync-jira-actions` (files `sync_pr.py`, `github_graphql.py`, `sync_to_jira.py`),
shallowly embedded in Lean.

Python strings are modelled as `String` where only equality matters
(Jira statuses, issue types, transition names, comments) and as `List Char`
where the code inspects their characters (PR titles, linked-issue titles,
Jira keys produced by the regular-expression search).
-/

namespace SyncJira

/-- One row of `TRANSITION_MAP` (`sync_pr.py` lines 29-49): the five
logical-name → Jira status/transition-name entries kept per issue type. -/
structure TransitionRow where
  review_status : String
  approved_status : String
  approved : String
  progress : String
  review : String
deriving DecidableEq, Repr

/-- `SIMPLE_TRANSITIONS` of `sync_pr.py` lines 29-35. -/
def SIMPLE_TRANSITIONS : TransitionRow :=
  { review_status := "Review in progress"
    approved_status := "Reviewer Approved"
    approved := "Reviewer Approved"
    progress := "In Progress"
    review := "Review in progress" }

/-- The `"GitHub Issue"` row of `TRANSITION_MAP` (`sync_pr.py` lines 38-44). -/
def GITHUB_ISSUE_TRANSITIONS : TransitionRow :=
  { review_status := "Review in progress"
    approved_status := "Reviewer Approved"
    approved := "Approved"
    progress := "Changes Requested"
    review := "Requires re-review" }

/-- `TRANSITION_MAP` of `sync_pr.py` lines 37-49 as a partial lookup:
`none` models the `KeyError` a Python dictionary access raises for a key
with no entry. -/
def TRANSITION_MAP (issue_type : String) : Option TransitionRow :=
  match issue_type with
  | "GitHub Issue" => some GITHUB_ISSUE_TRANSITIONS
  | "Task" => some SIMPLE_TRANSITIONS
  | "Sub-task" => some SIMPLE_TRANSITIONS
  | "Story" => some SIMPLE_TRANSITIONS
  | "Bug" => some SIMPLE_TRANSITIONS
  | _ => none

/-- `__check_pr_approval_status` of `sync_pr.py` lines 134-152.
`outcome` is the (nullable) `reviewDecision` fetched from GitHub, `reviews`
the fetched review states.  The Python function returns `True`, `False` or
`None`; falling off the end of the `if`/`elif` chain (reached exactly when
`approved` holds but `num_approved < MINIMUM_APPROVALS`) also returns `None`,
which the final `else` arm mirrors. -/
def check_pr_approval_status (outcome : Option String) (reviews : List String)
    (minimumApprovals : Int) : Option Bool :=
  let approved := outcome == some "APPROVED"
  let changes_requested := reviews.any (fun r => r == "CHANGES_REQUESTED")
  let num_approved := (reviews.filter (fun r => r == "APPROVED")).length
  if !approved && changes_requested then some false
  else if approved && ((num_approved : Int) ≥ minimumApprovals) then some true
  else if !approved && !changes_requested then none
  else none

/-- A mutating Jira call issued by the sweep: `jira.transition_issue` or
`jira.add_comment` (`sync_pr.py` lines 121-132). -/
inductive JAction where
  | transition (key : List Char) (name : String)
  | comment (key : List Char) (text : String)
deriving DecidableEq, Repr

/-- Comment posted when an issue moves from approved back to review
(`sync_pr.py` line 122). -/
def regressionComment : String :=
  "The PR linked to this issue has new changes or dismissed reviews and moved back to review."

/-- Comment posted when an issue moves from review to approved
(`sync_pr.py` line 128). -/
def approvalComment : String :=
  "The PR linked to this issue has met approval criteria and is ready to merge."

/-- Comment posted when an issue moves back to in progress
(`sync_pr.py` line 132). -/
def rejectionComment : String :=
  "The PR linked to this issue has new changes requested and moved back in progress."

/-- The body of the `for key in jira_keys` loop of `check_pr_approval_and_move`
(`sync_pr.py` lines 113-132) for one key.  `issueData` models
`jira.issue(key)`: the pair of the issue's `status` and `issuetype` fields.
`Except.error t` models the uncaught `KeyError` raised by
`TRANSITION_MAP[issue_type]` for an unmapped type `t`.  In the Python chain the
third branch (`elif approved and ...`) and fourth branch (`elif not approved
and ...`) are reached only after the two `approved is None` tests failed, so
there `approved` is the Python `True` (resp. `False`), i.e. `some true`
(resp. `some false`). -/
def processKey (approved : Option Bool) (issueData : List Char → String × String)
    (key : List Char) : Except String (List JAction) :=
  let issue_status := (issueData key).1
  let issue_type := (issueData key).2
  match TRANSITION_MAP issue_type with
  | none => Except.error issue_type
  | some transitions =>
    if approved == none && issue_status == transitions.approved_status then
      Except.ok [JAction.transition key transitions.review,
                 JAction.comment key regressionComment]
    else if approved == none then
      Except.ok []
    else if approved == some true && issue_status == transitions.review_status then
      Except.ok [JAction.transition key transitions.approved,
                 JAction.comment key approvalComment]
    else if approved == some false &&
        (issue_status == transitions.review_status
          || issue_status == transitions.approved_status) then
      Except.ok [JAction.transition key transitions.progress,
                 JAction.comment key rejectionComment]
    else
      Except.ok []

/-- The `for key in jira_keys` loop of `check_pr_approval_and_move`
(`sync_pr.py` lines 113-132): keys are processed sequentially; an uncaught
`KeyError` (modelled by `Except.error`) aborts the loop, so the returned pair
holds the Jira calls issued before the abort and the error, if any. -/
def approvalSweep (approved : Option Bool) (issueData : List Char → String × String) :
    List (List Char) → List JAction × Option String
  | [] => ([], none)
  | key :: rest =>
    match processKey approved issueData key with
    | Except.error e => ([], some e)
    | Except.ok acts =>
      let r := approvalSweep approved issueData rest
      (acts ++ r.1, r.2)

/-- `check_pr_approval_and_move` of `sync_pr.py` lines 104-132: compute the
approval verdict from the fetched review data, then sweep the linked keys. -/
def check_pr_approval_and_move (outcome : Option String) (reviews : List String)
    (minimumApprovals : Int) (issueData : List Char → String × String)
    (jira_keys : List (List Char)) : List JAction × Option String :=
  approvalSweep (check_pr_approval_status outcome reviews minimumApprovals)
    issueData jira_keys

/-- The ASCII fragment of Python's `\s` character class (and of the set
stripped by `str.strip()`): space, tab, newline, carriage return, vertical
tab, form feed.  The titles and keys handled here are ASCII. -/
def isSpaceChar (c : Char) : Bool :=
  c == ' ' || c == '\t' || c == '\n' || c == '\r' || c == '\x0b' || c == '\x0c'

/-- Split a character list on `'\n'`.  Python's `.` metacharacter does not
match a newline, so a match of `.*({project}-\d*).*` lies entirely within one
such line. -/
def splitLines : List Char → List (List Char)
  | [] => [[]]
  | c :: cs =>
    match splitLines cs with
    | [] => [[c]]
    | l :: ls => if c == '\n' then [] :: l :: ls else (c :: l) :: ls

/-- Largest index `i` of `hay` at which `needle` occurs (`none` when it never
occurs).  The greedy leading `.*` of `.*({project}-\d*).*` makes the capture
start at the last occurrence of `{project}-` within the matched line. -/
def lastTokenStart (needle hay : List Char) : Option Nat :=
  ((List.range (hay.length + 1)).filter (fun i => needle.isPrefixOf (hay.drop i))).getLast?

/-- Value of the capture group `({project}-\d*)` on one line: the last
occurrence of `{project}-` followed by the longest run of digits (`\d*` is
greedy; digits may be absent). -/
def captureGroup (project line : List Char) : Option (List Char) :=
  match lastTokenStart (project ++ ['-']) line with
  | none => none
  | some i =>
    some (project ++ '-' :: (line.drop (i + project.length + 1)).takeWhile Char.isDigit)

/-- `re.search(f'.*({project}-\d*).*', title).group(1)` (`sync_pr.py`
lines 91-93): `re.search` yields the leftmost match, so the match lies in the
first line containing `{project}-`; within that line the greedy leading `.*`
puts the capture at the last occurrence. -/
def reSearchGroup (project title : List Char) : Option (List Char) :=
  (splitLines title).findSome? (captureGroup project)

/-- The key-collection loop of `find_and_link_pr_issues` (`sync_pr.py`
lines 88-95), the spec's `resolveLinkedIssues`: one search per closing-issue
title, appending the capture on a match. -/
def resolveLinkedIssues (project : List Char) (titles : List (List Char)) :
    List (List Char) :=
  titles.filterMap (reSearchGroup project)

/-- One left-to-right pass of `re.sub(f'{project}-\d*', '', pr_title)`
(`sync_pr.py` line 97) with explicit fuel: at each position, either the
pattern `{project}-\d*` matches (remove it — the literal part plus the greedy
digit run — and continue after it) or the character is kept.  Every step
consumes at least one character, so `fuel = length` runs the pass to the end;
the fuel only makes the recursion structural, keeping the function
kernel-computable. -/
def stripTokensF (project : List Char) : Nat → List Char → List Char
  | _, [] => []
  | 0, l => l
  | fuel + 1, c :: cs =>
    if (project ++ ['-']).isPrefixOf (c :: cs) then
      stripTokensF project fuel (((c :: cs).drop (project.length + 1)).dropWhile Char.isDigit)
    else
      c :: stripTokensF project fuel cs

/-- `re.sub(f'{project}-\d*', '', pr_title)` (`sync_pr.py` line 97): remove
the leftmost non-overlapping matches of `{project}-\d*`, each with its greedy
digit run. -/
def stripTokens (project l : List Char) : List Char :=
  stripTokensF project l.length l

/-- One left-to-right pass of `re.sub('\(\s*\)', '', s)` (`sync_pr.py`
line 98) with explicit fuel (as in `stripTokensF`, `fuel = length` completes
the pass).  As `)` is not whitespace, the greedy `\s*` never backtracks: the
group matches exactly when the first non-whitespace character after `(` is
`)`. -/
def collapseEmptyParensF : Nat → List Char → List Char
  | _, [] => []
  | 0, l => l
  | fuel + 1, c :: cs =>
    if c == '(' then
      match cs.dropWhile isSpaceChar with
      | ')' :: rest => collapseEmptyParensF fuel rest
      | _ => c :: collapseEmptyParensF fuel cs
    else
      c :: collapseEmptyParensF fuel cs

/-- `re.sub('\(\s*\)', '', s)` (`sync_pr.py` line 98): remove each leftmost
non-overlapping `(` + whitespace + `)` group. -/
def collapseEmptyParens (l : List Char) : List Char :=
  collapseEmptyParensF l.length l

/-- Python `str.strip()` (`sync_pr.py` line 98) on ASCII text: drop leading
and trailing whitespace. -/
def stripEnds (l : List Char) : List Char :=
  ((l.dropWhile isSpaceChar).reverse.dropWhile isSpaceChar).reverse

/-- Python `" ".join(jira_keys)` (`sync_pr.py` line 99). -/
def joinSpace : List (List Char) → List Char
  | [] => []
  | [k] => k
  | k :: ks => k ++ ' ' :: joinSpace ks

/-- The title rewrite of `find_and_link_pr_issues` (`sync_pr.py` lines 97-99),
the spec's `rewriteTitle`: strip `{project}-\d*` tokens, collapse empty
parenthetical groups, trim, then append `" (" + " ".join(keys) + ")"`. -/
def rewriteTitle (project pr_title : List Char) (jira_keys : List (List Char)) :
    List Char :=
  let t1 := stripTokens project pr_title
  let t2 := stripEnds (collapseEmptyParens t1)
  t2 ++ ' ' :: '(' :: (joinSpace jira_keys ++ [')'])

/-- The GitHub mutation issued by `find_and_link_pr_issues`:
`repo.get_issue(pr_number).edit(title=new_pr_title)` (`sync_pr.py` line 101). -/
inductive PrAction where
  | editTitle (newTitle : List Char)
deriving DecidableEq, Repr

/-- `find_and_link_pr_issues` of `sync_pr.py` lines 76-102: collect the Jira
keys from the closing-issue titles; when at least one was found, rewrite the
PR title (the only mutation).  Returns the keys and the mutations issued. -/
def find_and_link_pr_issues (project pr_title : List Char)
    (closingTitles : List (List Char)) : List (List Char) × List PrAction :=
  let jira_keys := resolveLinkedIssues project closingTitles
  if jira_keys.length > 0 then
    (jira_keys, [PrAction.editTitle (rewriteTitle project pr_title jira_keys)])
  else
    (jira_keys, [])

/-- The linked-issue branch of `main` (`sync_to_jira.py` lines 150-155):
run `find_and_link_pr_issues`; when `any(jira_keys)` holds (some returned key
is a non-empty, hence truthy, string) run `check_pr_approval_and_move` on
them.  Returns the GitHub mutations, the Jira calls and the abort error, if
any. -/
def mainPrLinkStep (project pr_title : List Char) (closingTitles : List (List Char))
    (outcome : Option String) (reviews : List String) (minimumApprovals : Int)
    (issueData : List Char → String × String) :
    List PrAction × List JAction × Option String :=
  let r := find_and_link_pr_issues project pr_title closingTitles
  if r.1.any (fun k => !k.isEmpty) then
    let s := check_pr_approval_and_move outcome reviews minimumApprovals issueData r.1
    (r.2, s.1, s.2)
  else
    (r.2, [], none)

/-- The `latestReviews (last: 10)` pagination of the GraphQL query in
`get_pr_review_status` (`github_graphql.py` lines 73-94): of the full list of
latest per-reviewer reviews held by GitHub, the query returns the last ten. -/
def latestReviews (allStates : List String) : List String :=
  allStates.drop (allStates.length - 10)

/-- The `closingIssuesReferences (first: 10)` pagination of the GraphQL query
in `find_closing_issues` (`github_graphql.py` lines 33-50): the query returns
the first ten closing-issue references. -/
def closingIssuesReferences (allTitles : List (List Char)) : List (List Char) :=
  allTitles.take 10

/-- `needle` occurs as a contiguous substring of the character list. -/
def containsTok (needle : List Char) : List Char → Bool
  | [] => needle.isPrefixOf []
  | c :: cs => needle.isPrefixOf (c :: cs) || containsTok needle cs

/-- Number of (possibly overlapping) occurrence positions of `needle`. -/
def occCount (needle : List Char) : List Char → Nat
  | [] => if needle.isPrefixOf [] then 1 else 0
  | c :: cs => (if needle.isPrefixOf (c :: cs) then 1 else 0) + occCount needle cs

/-- Modelled from the spec: the spec's `JiraIssueKey` shape
`<PROJECT>-<digits>` — the project key, a hyphen, then at least one digit and
nothing else.  Stated from the spec's words to compare with what the code
returns. -/
def specKeyPattern (project key : List Char) : Bool :=
  (project ++ ['-']).isPrefixOf key &&
    (let ds := key.drop (project.length + 1)
     !ds.isEmpty && ds.all Char.isDigit)

/-- Concrete Jira data with an unmapped issue type: key `X-1` is an `"Epic"`
(no row in `TRANSITION_MAP`), key `X-2` a `"Task"` in review. -/
def epicThenTaskData : List Char → String × String := fun k =>
  if k == "X-1".toList then ("Review in progress", "Epic")
  else ("Review in progress", "Task")

/-! Helper lemmas shared by the claim theorems. -/

lemma tm_row_cases {t : String} {row : TransitionRow} (h : TRANSITION_MAP t = some row) :
    row = GITHUB_ISSUE_TRANSITIONS ∨ row = SIMPLE_TRANSITIONS := by
  unfold TRANSITION_MAP at h
  split at h <;> simp_all

lemma tm_approved_status_val {t : String} {row : TransitionRow}
    (h : TRANSITION_MAP t = some row) : row.approved_status = "Reviewer Approved" := by
  rcases tm_row_cases h with h1 | h1 <;> subst h1 <;> rfl

/-- C2: with `reviewDecision = "APPROVED"`, the verdict is `Approved`
(Python `True`) iff the number of `"APPROVED"` review states reaches the
configured minimum; below the minimum the verdict is `Pending` (Python
`None`), even when some state is `"CHANGES_REQUESTED"`. -/
theorem C2_approved_threshold (reviews : List String) (n : Int) :
    (check_pr_approval_status (some "APPROVED") reviews n = some true ↔
      n ≤ ((reviews.filter (fun r => r == "APPROVED")).length : Int)) ∧
    (((reviews.filter (fun r => r == "APPROVED")).length : Int) < n →
      check_pr_approval_status (some "APPROVED") reviews n = none) := by
  have key : check_pr_approval_status (some "APPROVED") reviews n =
      if n ≤ ((reviews.filter (fun r => r == "APPROVED")).length : Int) then some true
      else none := by
    unfold check_pr_approval_status
    simp [ge_iff_le]
  refine ⟨?_, ?_⟩
  · rw [key]
    by_cases h : n ≤ ((reviews.filter (fun r => r == "APPROVED")).length : Int)
    · simp [h]
    · simp [h]
  · intro hlt
    rw [key]
    have h : ¬ n ≤ ((reviews.filter (fun r => r == "APPROVED")).length : Int) := by omega
    simp [h]

/-- Witness for C2 at a concrete input: one approval and one
changes-requested state with a minimum of two stays `Pending`. -/
theorem C2_approved_threshold_witness :
    check_pr_approval_status (some "APPROVED") ["APPROVED", "CHANGES_REQUESTED"] 2 = none :=
  (C2_approved_threshold ["APPROVED", "CHANGES_REQUESTED"] 2).2 (by decide)

/-- C3: with any non-negative minimum and any `reviewDecision` other than
`"APPROVED"`, the verdict is `ChangesRequested` (Python `False`) whenever some
review state is `"CHANGES_REQUESTED"`, and `Pending` (Python `None`) when none
is — in particular for the empty review list. -/
theorem C3_changes_requested (outcome : Option String) (reviews : List String) (n : Int)
    (hn : 0 ≤ n) (ho : outcome ≠ some "APPROVED") :
    (reviews.any (fun r => r == "CHANGES_REQUESTED") = true →
      check_pr_approval_status outcome reviews n = some false) ∧
    (reviews.any (fun r => r == "CHANGES_REQUESTED") = false →
      check_pr_approval_status outcome reviews n = none) ∧
    check_pr_approval_status outcome [] n = none := by
  have hob : (outcome == some "APPROVED") = false := by
    simp [ho]
  refine ⟨?_, ?_, ?_⟩
  · intro hcr
    unfold check_pr_approval_status
    simp [hob, hcr]
  · intro hcr
    unfold check_pr_approval_status
    simp [hob, hcr]
  · unfold check_pr_approval_status
    simp [hob]

/-- Witness for C3 at a concrete input: `reviewDecision = null` with a single
changes-requested review gives `ChangesRequested`, and with no reviews gives
`Pending`. -/
theorem C3_changes_requested_witness :
    check_pr_approval_status none ["CHANGES_REQUESTED"] 3 = some false ∧
    check_pr_approval_status none [] 3 = none :=
  ⟨(C3_changes_requested none ["CHANGES_REQUESTED"] 3 (by decide) (by decide)).1 (by decide),
   (C3_changes_requested none [] 3 (by decide) (by decide)).2.2⟩

/-- C1 counterexample: with verdict `ChangesRequested` (Python `False`) and an
issue sitting at its row's `approved_status`, the code does NOT apply the
regression row: it issues the `progress` transition with the
changes-requested comment, not the `review` transition with the
dismissed-reviews comment the claim requires for every non-Approved verdict. -/
theorem C1_counterexample :
    check_pr_approval_status none ["CHANGES_REQUESTED"] 3 = some false ∧
    TRANSITION_MAP "Task" = some SIMPLE_TRANSITIONS ∧
    SIMPLE_TRANSITIONS.approved_status = "Reviewer Approved" ∧
    processKey (some false) (fun _ => ("Reviewer Approved", "Task")) "CPROJ-1".toList =
      Except.ok [JAction.transition "CPROJ-1".toList "In Progress",
                 JAction.comment "CPROJ-1".toList rejectionComment] ∧
    ("In Progress" : String) ≠ SIMPLE_TRANSITIONS.review ∧
    rejectionComment ≠ regressionComment := by
  refine ⟨rfl, rfl, rfl, rfl, ?_, ?_⟩ <;> decide

/-- C1 (amended): for an issue sitting at its row's `approved_status`, the
regression row (transition to the row's `review` with the dismissed-reviews
comment) is applied exactly when the verdict is `Pending` (Python `None`);
when the verdict is `ChangesRequested` (Python `False`) the rejection row is
applied instead: one transition to the row's `progress` with the
changes-requested comment.  Either way the row issues exactly one transition
and one comment. -/
theorem C1_regression_on_pending (issueData : List Char → String × String)
    (key : List Char) (row : TransitionRow)
    (h : TRANSITION_MAP ((issueData key).2) = some row)
    (hs : (issueData key).1 = row.approved_status) :
    processKey none issueData key =
      Except.ok [JAction.transition key row.review,
                 JAction.comment key regressionComment] ∧
    processKey (some false) issueData key =
      Except.ok [JAction.transition key row.progress,
                 JAction.comment key rejectionComment] := by
  refine ⟨?_, ?_⟩ <;> unfold processKey <;> simp [h, hs]

/-- Witness for C1 (amended) at a concrete input: a `"Task"` issue at
`"Reviewer Approved"`. -/
theorem C1_regression_on_pending_witness :
    processKey none (fun _ => ("Reviewer Approved", "Task")) "W-1".toList =
      Except.ok [JAction.transition "W-1".toList SIMPLE_TRANSITIONS.review,
                 JAction.comment "W-1".toList regressionComment] ∧
    processKey (some false) (fun _ => ("Reviewer Approved", "Task")) "W-1".toList =
      Except.ok [JAction.transition "W-1".toList SIMPLE_TRANSITIONS.progress,
                 JAction.comment "W-1".toList rejectionComment] :=
  C1_regression_on_pending (fun _ => ("Reviewer Approved", "Task")) "W-1".toList
    SIMPLE_TRANSITIONS rfl rfl

/-- C4: for an issue sitting at its row's `review_status`, an `Approved`
verdict (Python `True`) makes the sweep issue exactly one transition, named by
the row's `approved` entry, and exactly one comment, the ready-to-merge text;
sweeping that single key performs exactly those two calls and nothing else. -/
theorem C4_promotion (issueData : List Char → String × String)
    (key : List Char) (row : TransitionRow)
    (h : TRANSITION_MAP ((issueData key).2) = some row)
    (hs : (issueData key).1 = row.review_status) :
    processKey (some true) issueData key =
      Except.ok [JAction.transition key row.approved,
                 JAction.comment key approvalComment] ∧
    approvalSweep (some true) issueData [key] =
      ([JAction.transition key row.approved, JAction.comment key approvalComment],
        none) := by
  have h1 : processKey (some true) issueData key =
      Except.ok [JAction.transition key row.approved,
                 JAction.comment key approvalComment] := by
    unfold processKey
    simp [h, hs]
  refine ⟨h1, ?_⟩
  unfold approvalSweep
  rw [h1]
  simp [approvalSweep]

/-- Witness for C4 at a concrete input: a `"GitHub Issue"` issue at
`"Review in progress"` moves via the `"Approved"` transition. -/
theorem C4_promotion_witness :
    processKey (some true) (fun _ => ("Review in progress", "GitHub Issue")) "W-2".toList =
      Except.ok [JAction.transition "W-2".toList GITHUB_ISSUE_TRANSITIONS.approved,
                 JAction.comment "W-2".toList approvalComment] ∧
    approvalSweep (some true) (fun _ => ("Review in progress", "GitHub Issue")) ["W-2".toList] =
      ([JAction.transition "W-2".toList GITHUB_ISSUE_TRANSITIONS.approved,
        JAction.comment "W-2".toList approvalComment], none) :=
  C4_promotion (fun _ => ("Review in progress", "GitHub Issue")) "W-2".toList
    GITHUB_ISSUE_TRANSITIONS rfl rfl

/-- C5: with `reviewDecision = null` and review states
`["CHANGES_REQUESTED"]` the verdict is `ChangesRequested` (Python `False`,
for any configured minimum), and a linked issue whose status is
`"Reviewer Approved"` — the `approved_status` of every row of the table — is
transitioned via its row's `progress` entry with the moved-back-in-progress
comment. -/
theorem C5_scenario_b (m : Int) (issueData : List Char → String × String)
    (key : List Char) (row : TransitionRow)
    (h : TRANSITION_MAP ((issueData key).2) = some row)
    (hs : (issueData key).1 = "Reviewer Approved") :
    check_pr_approval_status none ["CHANGES_REQUESTED"] m = some false ∧
    processKey (some false) issueData key =
      Except.ok [JAction.transition key row.progress,
                 JAction.comment key rejectionComment] := by
  refine ⟨rfl, ?_⟩
  have has : (issueData key).1 = row.approved_status := by
    rw [hs, tm_approved_status_val h]
  unfold processKey
  simp [h, has]

/-- Witness for C5 at a concrete input: a `"Story"` issue at
`"Reviewer Approved"` moves back via `"In Progress"`. -/
theorem C5_scenario_b_witness :
    check_pr_approval_status none ["CHANGES_REQUESTED"] 3 = some false ∧
    processKey (some false) (fun _ => ("Reviewer Approved", "Story")) "W-3".toList =
      Except.ok [JAction.transition "W-3".toList SIMPLE_TRANSITIONS.progress,
                 JAction.comment "W-3".toList rejectionComment] :=
  C5_scenario_b 3 (fun _ => ("Reviewer Approved", "Story")) "W-3".toList
    SIMPLE_TRANSITIONS rfl rfl

/-- C9: a key whose issue status is neither its row's `review_status` nor its
`approved_status` gets no transition and no comment, for every verdict; and
with a `Pending` verdict (Python `None`) the status only has to differ from
`approved_status` for the key to be a no-op. -/
theorem C9_noop (approved : Option Bool) (issueData : List Char → String × String)
    (key : List Char) (row : TransitionRow)
    (h : TRANSITION_MAP ((issueData key).2) = some row)
    (hcases : ((issueData key).1 ≠ row.review_status ∧
        (issueData key).1 ≠ row.approved_status) ∨
      (approved = none ∧ (issueData key).1 ≠ row.approved_status)) :
    processKey approved issueData key = Except.ok [] := by
  unfold processKey
  rcases hcases with ⟨h1, h2⟩ | ⟨h1, h2⟩
  · simp [h, h1, h2]
  · simp [h, h1, h2]

/-- Witness for C9 at concrete inputs: a `"Task"` issue at `"In Progress"`
is untouched by an `Approved` verdict, and one at `"Review in progress"` is
untouched by a `Pending` verdict. -/
theorem C9_noop_witness :
    processKey (some true) (fun _ => ("In Progress", "Task")) "W-4".toList =
      Except.ok [] ∧
    processKey none (fun _ => ("Review in progress", "Task")) "W-5".toList =
      Except.ok [] :=
  ⟨C9_noop (some true) (fun _ => ("In Progress", "Task")) "W-4".toList
      SIMPLE_TRANSITIONS rfl (Or.inl ⟨by decide, by decide⟩),
   C9_noop none (fun _ => ("Review in progress", "Task")) "W-5".toList
      SIMPLE_TRANSITIONS rfl (Or.inr ⟨rfl, by decide⟩)⟩

/-- C6 counterexample: `"Epic"` has no row, and the lookup failure (the
uncaught Python `KeyError`) aborts the whole sweep — the following key
`X-2`, which on its own would be promoted, gets no transition and no comment,
contradicting the claim that the sweep continues to the next Jira key. -/
theorem C6_counterexample :
    TRANSITION_MAP "Epic" = none ∧
    approvalSweep (some true) epicThenTaskData ["X-1".toList, "X-2".toList] =
      ([], some "Epic") ∧
    processKey (some true) epicThenTaskData "X-2".toList =
      Except.ok [JAction.transition "X-2".toList "Reviewer Approved",
                 JAction.comment "X-2".toList approvalComment] :=
  ⟨rfl, by decide, rfl⟩

/-- C6 (amended): a Jira issue type with no row in the transition table makes
the row lookup fail with an error naming the type (a `KeyError` — never a
silent default), and the uncaught error aborts the sweep: the failing key
produces no Jira call and no later key of the same invocation is processed. -/
theorem C6_unknown_type_aborts (approved : Option Bool)
    (issueData : List Char → String × String) (key : List Char)
    (rest : List (List Char))
    (h : TRANSITION_MAP ((issueData key).2) = none) :
    processKey approved issueData key = Except.error ((issueData key).2) ∧
    approvalSweep approved issueData (key :: rest) = ([], some ((issueData key).2)) := by
  have h1 : processKey approved issueData key = Except.error ((issueData key).2) := by
    unfold processKey
    simp [h]
  refine ⟨h1, ?_⟩
  unfold approvalSweep
  rw [h1]

/-- Witness for C6 (amended) at a concrete input: an `"Epic"` key aborts the
sweep before the rest of the batch. -/
theorem C6_unknown_type_aborts_witness :
    processKey (some true) (fun _ => ("Review in progress", "Epic")) "W-6".toList =
      Except.error "Epic" ∧
    approvalSweep (some true) (fun _ => ("Review in progress", "Epic"))
      ["W-6".toList, "W-7".toList] = ([], some "Epic") :=
  C6_unknown_type_aborts (some true) (fun _ => ("Review in progress", "Epic"))
    "W-6".toList ["W-7".toList] rfl

/-- C7 counterexample: the source pattern is `{project}-\d*` — zero or more
digits — so the title `"Fix PROJ- thing"`, which contains no
`PROJ-<digits>` token, still yields the key `"PROJ-"`, which does not match
the claimed shape `<PROJECT>-<digits>`; in particular the result is not
empty. -/
theorem C7_counterexample :
    resolveLinkedIssues "PROJ".toList ["Fix PROJ- thing".toList] = ["PROJ-".toList] ∧
    specKeyPattern "PROJ".toList "PROJ-".toList = false := by
  refine ⟨?_, ?_⟩ <;> decide

lemma captureGroup_shape {project line k : List Char}
    (h : captureGroup project line = some k) :
    ∃ ds, (∀ c ∈ ds, c.isDigit = true) ∧ k = project ++ '-' :: ds := by
  unfold captureGroup at h
  cases hl : lastTokenStart (project ++ ['-']) line with
  | none => rw [hl] at h; simp at h
  | some i =>
    rw [hl] at h
    simp only [Option.some.injEq] at h
    exact ⟨_, fun c hc => List.mem_takeWhile_imp hc, h.symm⟩

lemma reSearchGroup_shape {project title k : List Char}
    (h : reSearchGroup project title = some k) :
    ∃ ds, (∀ c ∈ ds, c.isDigit = true) ∧ k = project ++ '-' :: ds := by
  unfold reSearchGroup at h
  rcases List.exists_of_findSome?_eq_some h with ⟨line, _, hc⟩
  exact captureGroup_shape hc

/-- C7 (amended): `resolveLinkedIssues` is order-preserving (it distributes
over concatenation of the title list, keeping duplicates) and returns `[]`
when no title matches; but the source pattern is `{project}-\d*`, so every
returned key is the project key, a hyphen, then a POSSIBLY EMPTY digit run —
a key need not match `<PROJECT>-<digits>`, and a title containing
`{project}-` with no digits after it still produces a key. -/
theorem C7_resolve (project : List Char) (ts1 ts2 : List (List Char)) :
    (∀ k ∈ resolveLinkedIssues project ts1,
      ∃ ds, (∀ c ∈ ds, c.isDigit = true) ∧ k = project ++ '-' :: ds) ∧
    resolveLinkedIssues project (ts1 ++ ts2) =
      resolveLinkedIssues project ts1 ++ resolveLinkedIssues project ts2 ∧
    ((∀ t ∈ ts1, reSearchGroup project t = none) →
      resolveLinkedIssues project ts1 = []) := by
  unfold resolveLinkedIssues
  refine ⟨?_, ?_, ?_⟩
  · intro k hk
    rcases List.mem_filterMap.mp hk with ⟨t, _, hf⟩
    exact reSearchGroup_shape hf
  · exact List.filterMap_append ts1 ts2 _
  · intro hnone
    exact List.filterMap_eq_nil_iff.mpr hnone

/-- Witness for C7 (amended) at concrete inputs: a matching and a
non-matching title. -/
theorem C7_resolve_witness :
    resolveLinkedIssues "PROJ".toList ["nothing to see".toList] = [] ∧
    resolveLinkedIssues "PROJ".toList
        ("Fix crash (PROJ-42)".toList :: "nothing to see".toList :: []) =
      resolveLinkedIssues "PROJ".toList ["Fix crash (PROJ-42)".toList] ++
        resolveLinkedIssues "PROJ".toList ["nothing to see".toList] :=
  ⟨(C7_resolve "PROJ".toList ["nothing to see".toList] []).2.2 (by decide),
   (C7_resolve "PROJ".toList ["Fix crash (PROJ-42)".toList]
      ["nothing to see".toList]).2.1⟩

lemma containsTok_of_isPrefixOf {k l : List Char} (h : k.isPrefixOf l = true) :
    containsTok k l = true := by
  cases l with
  | nil => simpa [containsTok] using h
  | cons c cs => simp [containsTok, h]

lemma containsTok_append_left (a : List Char) {k l : List Char}
    (h : containsTok k l = true) : containsTok k (a ++ l) = true := by
  induction a with
  | nil => simpa using h
  | cons c cs ih => simp [containsTok, ih]

lemma containsTok_append_right {k l : List Char} (r : List Char)
    (h : containsTok k l = true) : containsTok k (l ++ r) = true := by
  induction l with
  | nil =>
    have hk : k = [] := by
      cases k with
      | nil => rfl
      | cons x xs => simp [containsTok, List.isPrefixOf] at h
    subst hk
    cases r with
    | nil => simp [containsTok, List.isPrefixOf]
    | cons c cs => simp [containsTok, List.isPrefixOf]
  | cons c cs ih =>
    simp only [containsTok, Bool.or_eq_true] at h ⊢
    rcases h with h | h
    · left
      rw [List.isPrefixOf_iff_prefix] at h ⊢
      exact h.trans (List.prefix_append (c :: cs) r)
    · right
      exact ih h

lemma containsTok_joinSpace {k : List Char} {keys : List (List Char)}
    (h : k ∈ keys) : containsTok k (joinSpace keys) = true := by
  induction keys with
  | nil => cases h
  | cons k1 ks ih =>
    rcases List.mem_cons.mp h with rfl | hmem
    · cases ks with
      | nil =>
        exact containsTok_of_isPrefixOf
          (List.isPrefixOf_iff_prefix.mpr (List.prefix_refl k))
      | cons k2 ks2 =>
        exact containsTok_of_isPrefixOf
          (List.isPrefixOf_iff_prefix.mpr (List.prefix_append k _))
    · cases ks with
      | nil => cases hmem
      | cons k2 ks2 =>
        show containsTok k (k1 ++ ' ' :: joinSpace (k2 :: ks2)) = true
        apply containsTok_append_left k1
        simp [containsTok, ih hmem]

lemma stripTokensF_id {project : List Char} (fuel : Nat) {l : List Char}
    (h : containsTok (project ++ ['-']) l = false) :
    stripTokensF project fuel l = l := by
  induction fuel generalizing l with
  | zero => cases l <;> rfl
  | succ n ih =>
    cases l with
    | nil => rfl
    | cons c cs =>
      simp only [containsTok, Bool.or_eq_false_iff] at h
      obtain ⟨h1, h2⟩ := h
      simp [stripTokensF, h1, ih h2]

/-- C8 counterexample: the single-pass strip can splice a new key token out
of the surrounding text — stripping `"PROJPROJ-4-42"` removes only `PROJ-4`
and leaves `"PROJ-42"` — so rewriting with the resolved key set
`["PROJ-42"]` yields `"PROJ-42 (PROJ-42)"`: the key occurs twice in the
rewritten title, contradicting the claim that stripping then re-appending
never duplicates a key. -/
theorem C8_counterexample :
    stripTokens "PROJ".toList "PROJPROJ-4-42".toList = "PROJ-42".toList ∧
    rewriteTitle "PROJ".toList "PROJPROJ-4-42".toList ["PROJ-42".toList] =
      "PROJ-42 (PROJ-42)".toList ∧
    occCount "PROJ-42".toList
      (rewriteTitle "PROJ".toList "PROJPROJ-4-42".toList ["PROJ-42".toList]) = 2 := by
  refine ⟨?_, ?_, ?_⟩ <;> decide

/-- C8 (amended): when the resolved key list is empty,
`find_and_link_pr_issues` returns `[]` and issues no title edit, and the
orchestrator branch performs no Jira transition or comment either; stripping
is the identity on titles with no `{project}-` occurrence (the general strip
removes only the leftmost non-overlapping matches in a single pass, and a
removal can splice together a new key token, so the round trip can duplicate
a key — see the counterexample); every resolved key occurs in the rewritten
title's appended parenthetical. -/
theorem C8_rewrite_and_empty (project pr_title : List Char)
    (closingTitles keys : List (List Char)) (outcome : Option String)
    (reviews : List String) (m : Int) (issueData : List Char → String × String) :
    (resolveLinkedIssues project closingTitles = [] →
      find_and_link_pr_issues project pr_title closingTitles = ([], []) ∧
      mainPrLinkStep project pr_title closingTitles outcome reviews m issueData =
        ([], [], none)) ∧
    (containsTok (project ++ ['-']) pr_title = false →
      stripTokens project pr_title = pr_title) ∧
    (∀ k ∈ keys, containsTok k (rewriteTitle project pr_title keys) = true) := by
  refine ⟨?_, ?_, ?_⟩
  · intro h
    have h1 : find_and_link_pr_issues project pr_title closingTitles = ([], []) := by
      unfold find_and_link_pr_issues
      simp [h]
    refine ⟨h1, ?_⟩
    unfold mainPrLinkStep
    rw [h1]
    simp
  · intro h
    exact stripTokensF_id pr_title.length h
  · intro k hk
    have h1 : containsTok k (joinSpace keys ++ [')']) = true :=
      containsTok_append_right [')'] (containsTok_joinSpace hk)
    have h2 : containsTok k ('(' :: (joinSpace keys ++ [')'])) = true := by
      show (k.isPrefixOf ('(' :: (joinSpace keys ++ [')'])) ||
        containsTok k (joinSpace keys ++ [')'])) = true
      rw [h1, Bool.or_true]
    have h3 : containsTok k (' ' :: '(' :: (joinSpace keys ++ [')'])) = true := by
      show (k.isPrefixOf (' ' :: '(' :: (joinSpace keys ++ [')'])) ||
        containsTok k ('(' :: (joinSpace keys ++ [')']))) = true
      rw [h2, Bool.or_true]
    exact containsTok_append_left _ h3

/-- Witness for C8 (amended) at concrete inputs: no linked issues means no
mutations at all, and a resolved key appears in the rewritten title. -/
theorem C8_rewrite_and_empty_witness :
    mainPrLinkStep "PROJ".toList "Fix bug".toList ["nothing here".toList]
        none [] 3 (fun _ => ("In Progress", "Task")) = ([], [], none) ∧
    containsTok "PROJ-7".toList
      (rewriteTitle "PROJ".toList "Fix bug".toList ["PROJ-7".toList]) = true :=
  ⟨((C8_rewrite_and_empty "PROJ".toList "Fix bug".toList ["nothing here".toList]
      ["PROJ-7".toList] none [] 3 (fun _ => ("In Progress", "Task"))).1
        (by decide)).2,
   (C8_rewrite_and_empty "PROJ".toList "Fix bug".toList ["nothing here".toList]
      ["PROJ-7".toList] none [] 3 (fun _ => ("In Progress", "Task"))).2.2
        "PROJ-7".toList (by decide)⟩

lemma processKey_no_approve {approved : Option Bool} (h : approved ≠ some true)
    (issueData : List Char → String × String) (key2 : List Char) {acts : List JAction}
    (hp : processKey approved issueData key2 = Except.ok acts) (k : List Char) :
    JAction.transition k "Approved" ∉ acts ∧
    JAction.transition k "Reviewer Approved" ∉ acts ∧
    JAction.comment k approvalComment ∉ acts := by
  unfold processKey at hp
  cases htm : TRANSITION_MAP ((issueData key2).2) with
  | none =>
    simp only [htm] at hp
    exact Except.noConfusion hp
  | some row =>
    simp only [htm] at hp
    have hrv : ("Approved" : String) ≠ row.review ∧
        ("Reviewer Approved" : String) ≠ row.review ∧
        ("Approved" : String) ≠ row.progress ∧
        ("Reviewer Approved" : String) ≠ row.progress := by
      rcases tm_row_cases htm with hr | hr <;> subst hr <;>
        exact ⟨by decide, by decide, by decide, by decide⟩
    obtain ⟨hrv1, hrv2, hrv3, hrv4⟩ := hrv
    split at hp
    · simp only [Except.ok.injEq] at hp
      subst hp
      refine ⟨?_, ?_, ?_⟩ <;> simp [hrv1, hrv2, approvalComment, regressionComment]
    · split at hp
      · simp only [Except.ok.injEq] at hp
        subst hp
        simp
      · split at hp
        · rename_i hc
          rw [Bool.and_eq_true] at hc
          exact absurd (by simpa using hc.1) h
        · split at hp
          · simp only [Except.ok.injEq] at hp
            subst hp
            refine ⟨?_, ?_, ?_⟩ <;> simp [hrv3, hrv4, approvalComment, rejectionComment]
          · simp only [Except.ok.injEq] at hp
            subst hp
            simp

lemma approvalSweep_no_approve {approved : Option Bool} (h : approved ≠ some true)
    (issueData : List Char → String × String) (keys : List (List Char)) (k : List Char) :
    JAction.transition k "Approved" ∉ (approvalSweep approved issueData keys).1 ∧
    JAction.transition k "Reviewer Approved" ∉ (approvalSweep approved issueData keys).1 ∧
    JAction.comment k approvalComment ∉ (approvalSweep approved issueData keys).1 := by
  induction keys with
  | nil => simp [approvalSweep]
  | cons key2 rest ih =>
    unfold approvalSweep
    cases hp : processKey approved issueData key2 with
    | error e => simp
    | ok acts =>
      obtain ⟨h1, h2, h3⟩ := processKey_no_approve h issueData key2 hp k
      obtain ⟨i1, i2, i3⟩ := ih
      refine ⟨?_, ?_, ?_⟩ <;> simp only [List.mem_append, not_or] <;> exact ⟨by assumption, by assumption⟩

/-- C10: the GraphQL queries fetch at most the last ten review states and the
first ten closing-issue references; hence with a configured minimum above
ten the fetched approval count can never reach it, the verdict is never
`Approved` (Python `True`), and a sweep run with a non-`Approved` verdict
never transitions any issue to an approved state (`"Approved"` or
`"Reviewer Approved"` — the `approved` entries of the two table rows) and
never posts the ready-to-merge comment. -/
theorem C10_pagination (allStates : List String) (allTitles : List (List Char))
    (outcome : Option String) (reviews : List String) (minimumApprovals : Int)
    (approved : Option Bool) (issueData : List Char → String × String)
    (keys : List (List Char)) :
    (latestReviews allStates).length ≤ 10 ∧
    (closingIssuesReferences allTitles).length ≤ 10 ∧
    (reviews.length ≤ 10 → minimumApprovals > 10 →
      check_pr_approval_status outcome reviews minimumApprovals ≠ some true) ∧
    (approved ≠ some true → ∀ k : List Char,
      JAction.transition k "Approved" ∉ (approvalSweep approved issueData keys).1 ∧
      JAction.transition k "Reviewer Approved" ∉ (approvalSweep approved issueData keys).1 ∧
      JAction.comment k approvalComment ∉ (approvalSweep approved issueData keys).1) := by
  refine ⟨?_, ?_, ?_, ?_⟩
  · simp only [latestReviews, List.length_drop]
    omega
  · simp only [closingIssuesReferences, List.length_take]
    omega
  · intro h10 hmin heq
    have hle := List.length_filter_le (fun r => r == "APPROVED") reviews
    unfold check_pr_approval_status at heq
    simp only [ge_iff_le] at heq
    split at heq
    · simp at heq
    · split at heq
      · rename_i hc
        rw [Bool.and_eq_true] at hc
        have hge := of_decide_eq_true hc.2
        omega
      · split at heq
        · exact Option.noConfusion heq
        · exact Option.noConfusion heq
  · intro hna k
    exact approvalSweep_no_approve hna issueData keys k

/-- Witness for C10 at concrete inputs: even ten approvals with a minimum of
eleven stay below the threshold, and a `Pending` sweep issues no approving
transition. -/
theorem C10_pagination_witness :
    check_pr_approval_status (some "APPROVED")
        ["APPROVED", "APPROVED", "APPROVED", "APPROVED", "APPROVED", "APPROVED",
         "APPROVED", "APPROVED", "APPROVED", "APPROVED"] 11 ≠ some true ∧
    JAction.transition "W-8".toList "Approved" ∉
      (approvalSweep none (fun _ => ("Review in progress", "GitHub Issue"))
        ["W-8".toList]).1 :=
  ⟨(C10_pagination [] [] (some "APPROVED")
      ["APPROVED", "APPROVED", "APPROVED", "APPROVED", "APPROVED", "APPROVED",
       "APPROVED", "APPROVED", "APPROVED", "APPROVED"] 11 none
      (fun _ => ("Review in progress", "GitHub Issue")) ["W-8".toList]).2.2.1
        (by decide) (by decide),
   ((C10_pagination [] [] (some "APPROVED")
      ["APPROVED", "APPROVED", "APPROVED", "APPROVED", "APPROVED", "APPROVED",
       "APPROVED", "APPROVED", "APPROVED", "APPROVED"] 11 none
      (fun _ => ("Review in progress", "GitHub Issue")) ["W-8".toList]).2.2.2
        (by simp) "W-8".toList).1⟩

end SyncJira
